import Mathlib

/-!
Shallow embedding of `thegostep/uniswap-v2-helper` (src/index.ts, the richer
TypeScript variant, and src/index.js, the earlier JavaScript variant).

External chain state (token decimals, pair reserves, token ordering, block
timestamp, balances, allowances) is a record read by the embedded functions.
Every chain interaction is recorded in an event trace, and every embedded
operation returns `List Event × Except Err α`: the chronological trace of
chain calls issued before returning or failing, together with the outcome.

ethers.js `BigNumber` is an arbitrary-precision signed integer whose `div`
truncates toward zero; it is embedded as `Int` with `Int.tdiv`.
-/

namespace UniswapV2Helper

/-- Errors surfaced by the library or the underlying libraries/contracts.
`invalidIntent` is the explicit `throw new Error("must only specify
inputAmount or outputAmount")` guard; `fractionExceedsDecimals` and
`invalidDecimal` are the ethers `parseUnits` parsing failures;
`missingValue` is parseFixed's rejection of the bare "." amount string;
`invalidValue` is the ethers failure raised when `undefined`/`null` is used
where a BigNumber is required (argument encoding, `BigNumber.add`);
`divByZero` is BigNumber division by zero; `chainRevert` is a contract call
that reverts or hits an address without code, carrying the revert reason;
`poolUnavailable` is the dedicated pool-missing error named by the spec
(never raised by the code, present so statements can compare against it). -/
inductive Err where
  | invalidIntent
  | fractionExceedsDecimals
  | invalidDecimal
  | missingValue
  | invalidValue
  | divByZero
  | insufficientBalance
  | chainRevert (reason : String)
  | poolUnavailable
  deriving DecidableEq, Repr

/-- The spec's `InvalidIntent` error class (section 7 of the spec):
"ambiguous or missing exact-amount specification; malformed address; amount
string exceeds token precision" — the explicit intent guard and the
amount-string parsing rejections. -/
def Err.invalidIntentClass : Err → Bool
  | .invalidIntent => true
  | .fractionExceedsDecimals => true
  | .invalidDecimal => true
  | .missingValue => true
  | _ => false

/-- Chain interactions, in the order the code issues them.  `read*` events
are read-only queries; `write*` events are state-changing transactions and
`wait*` events are confirmations of those transactions. -/
inductive Event where
  | readFactory
  | readGetPair
  | readDecimalsInput
  | readDecimalsOutput
  | readGetBlock
  | readGetAmountsOut
  | readGetAmountsIn
  | readToken0
  | readGetReserves
  | readGetNetwork
  | readBalanceOf
  | readAllowance
  | writeApprove (spender : String) (amount : Int)
  | waitApprove
  | writeSwapExactTokensForTokens (amountIn amountOut : Int) (path : List String)
      (recipient : String) (deadline : Nat)
  | writeSwapTokensForExactTokens (amountOut amountIn : Int) (path : List String)
      (recipient : String) (deadline : Nat)
  | waitSwap
  deriving DecidableEq, Repr

/-- Whether an event is a chain-write call (transaction submission or its
confirmation). -/
def Event.isWrite : Event → Bool
  | .writeApprove _ _ => true
  | .waitApprove => true
  | .writeSwapExactTokensForTokens _ _ _ _ _ => true
  | .writeSwapTokensForExactTokens _ _ _ _ _ => true
  | .waitSwap => true
  | _ => false

/-- A step of an embedded operation: the chain calls it issued, and its
outcome. -/
abbrev Step (α : Type) := List Event × Except Err α

/-- Sequencing of steps: on failure the remaining computation is skipped and
the trace so far is kept; on success the traces concatenate. -/
def seqS {α β : Type} : Step α → (α → Step β) → Step β
  | (evs, .error e), _ => (evs, .error e)
  | (evs, .ok a), k => (evs ++ (k a).1, (k a).2)

/-- A pure value, issuing no chain call. -/
def retS {α : Type} (a : α) : Step α := ([], .ok a)

/-- A single chain read returning `x`. -/
def readS {α : Type} (ev : Event) (x : Except Err α) : Step α := ([ev], x)

/-- A local (off-chain) computation that may fail. -/
def pureE {α : Type} (x : Except Err α) : Step α := ([], x)

/-- A local failure, issuing no chain call. -/
def failS {α : Type} (e : Err) : Step α := ([], .error e)

theorem seqS_ok {α β : Type} (evs : List Event) (a : α) (k : α → Step β) :
    seqS (evs, .ok a) k = (evs ++ (k a).1, (k a).2) := rfl

theorem seqS_error {α β : Type} (evs : List Event) (e : Err) (k : α → Step β) :
    seqS (evs, .error e) k = (evs, .error e) := rfl

/-! ### ethers.js `parseUnits` (from @ethersproject/units / parseFixed) -/

/-- Split a character list at the first `.`, returning the part before it
and, when a `.` occurs, the part after it. -/
def splitOnDot : List Char → List Char × Option (List Char)
  | [] => ([], none)
  | c :: rest =>
    if c = '.' then ([], some rest)
    else
      let p := splitOnDot rest
      (c :: p.1, p.2)

/-- Numeric value of a digit list (most significant first); empty list is 0,
matching parseFixed's substitution of "0" for an empty component. -/
def digitsVal : List Char → Nat
  | [] => 0
  | c :: rest => (c.toNat - '0'.toNat) * 10 ^ rest.length + digitsVal rest

/-- Trailing-zeros trim of the fractional component: parseFixed's
`while (fraction[fraction.length - 1] === "0") fraction = fraction.substring(...)`. -/
def trimTrailingZeros (f : List Char) : List Char :=
  (f.reverse.dropWhile (fun c => c == '0')).reverse

/-- ethers `parseUnits(value, decimals)` on the character list of the value
string, following parseFixed: optional leading `-`; the remaining characters
must be digits or dots and nonempty; the bare "." is rejected as a missing
value; more than one dot is rejected; the fractional part is trimmed of its
trailing zeros and must then be no longer than `decimals` (so an amount
exactly representable at this precision is accepted even when written with
surplus trailing zeros); the result is the amount scaled to the token's
smallest unit. -/
def parseUnitsCore (cs : List Char) (decimals : Nat) : Except Err Int :=
  let (neg, body) :=
    match cs with
    | '-' :: rest => (true, rest)
    | _ => (false, cs)
  if body.isEmpty then .error .invalidDecimal
  else if !body.all (fun c => c.isDigit || c == '.') then .error .invalidDecimal
  else if body = ['.'] then .error .missingValue
  else
    let p := splitOnDot body
    match p.2 with
    | some f =>
      if '.' ∈ f then .error .invalidDecimal
      else
        let tf := trimTrailingZeros f
        if decimals < tf.length then .error .fractionExceedsDecimals
        else
          let v : Int := digitsVal p.1 * 10 ^ decimals + digitsVal tf * 10 ^ (decimals - tf.length)
          .ok (if neg then -v else v)
    | none =>
      let v : Int := digitsVal p.1 * 10 ^ decimals
      .ok (if neg then -v else v)

/-- ethers `parseUnits` on a string. -/
def parseUnits (s : String) (decimals : Nat) : Except Err Int :=
  parseUnitsCore s.data decimals

/-! ### External chain state -/

/-- One snapshot of the external chain state read by a call
(the spec's "fixed external state"): the two tokens' decimals, whether the
input/output pair contract exists, its reserves and which token is
`token0`, the latest block timestamp, and the signer's input-token balance
and router allowance (used only by `swapTokens`). -/
structure ChainState where
  inputDecimals : Nat
  outputDecimals : Nat
  pairExists : Bool
  reserve0 : Int
  reserve1 : Int
  token0IsInput : Bool
  timestamp : Nat
  balance : Int
  allowance : Int
  deriving DecidableEq, Repr

/-- BigNumber truncating division; ethers throws on a zero divisor. -/
def bnDiv (a b : Int) : Except Err Int :=
  if b = 0 then .error .divByZero else .ok (Int.tdiv a b)

/-- Embeds `reserve.add(x)` where `x` may be `undefined`/`null`: ethers raises
"invalid BigNumber value" on a missing operand. -/
def bnAddOpt (a : Int) : Option Int → Except Err Int
  | none => .error .invalidValue
  | some b => .ok (a + b)

/-- Reserve on the input-token side of the pair (UniswapV2Library sorts the
reserves to the query's token order). -/
def reserveIn (st : ChainState) : Int :=
  if st.token0IsInput then st.reserve0 else st.reserve1

/-- Reserve on the output-token side of the pair. -/
def reserveOut (st : ChainState) : Int :=
  if st.token0IsInput then st.reserve1 else st.reserve0

/-- External Uniswap V2 router `getAmountsOut(amountIn, [in, out])[1]`,
modelled from the on-chain UniswapV2Library: the pair's `getReserves` call
fails when the pair contract does not exist; `getAmountOut` requires a
positive input amount and positive reserves, then returns
`amountIn*997*reserveOut / (reserveIn*1000 + amountIn*997)`. -/
def routerGetAmountsOut (st : ChainState) (amountIn : Int) : Except Err Int :=
  if !st.pairExists then .error (.chainRevert "call revert exception")
  else if amountIn ≤ 0 then .error (.chainRevert "UniswapV2Library: INSUFFICIENT_INPUT_AMOUNT")
  else if reserveIn st ≤ 0 ∨ reserveOut st ≤ 0 then
    .error (.chainRevert "UniswapV2Library: INSUFFICIENT_LIQUIDITY")
  else
    let amountInWithFee := amountIn * 997
    .ok (Int.tdiv (amountInWithFee * reserveOut st) (reserveIn st * 1000 + amountInWithFee))

/-- External Uniswap V2 router `getAmountsIn(amountOut, [in, out])[0]`,
modelled from the on-chain UniswapV2Library: requires a positive output
amount, positive reserves and `amountOut < reserveOut` (otherwise the
SafeMath subtraction reverts), then returns
`reserveIn*amountOut*1000 / ((reserveOut - amountOut)*997) + 1`. -/
def routerGetAmountsIn (st : ChainState) (amountOut : Int) : Except Err Int :=
  if !st.pairExists then .error (.chainRevert "call revert exception")
  else if amountOut ≤ 0 then .error (.chainRevert "UniswapV2Library: INSUFFICIENT_OUTPUT_AMOUNT")
  else if reserveIn st ≤ 0 ∨ reserveOut st ≤ 0 then
    .error (.chainRevert "UniswapV2Library: INSUFFICIENT_LIQUIDITY")
  else if reserveOut st - amountOut ≤ 0 then .error (.chainRevert "ds-math-sub-underflow")
  else
    .ok (Int.tdiv (reserveIn st * amountOut * 1000) ((reserveOut st - amountOut) * 997) + 1)

/-- A router quote call whose argument may be `null`/`undefined`: ethers
fails while encoding the arguments, before any query reaches the chain, so
no read event is issued in that case. -/
def quoteStep (ev : Event) (quote : Int → Except Err Int) : Option Int → Step Int
  | none => ([], .error .invalidValue)
  | some a => ([ev], quote a)

/-- Embeds `Pair.token0()` compared against the input token's address (the
contract at the zero address has no code, so the call fails when the pair
does not exist). -/
def pairToken0IsInput (st : ChainState) : Except Err Bool :=
  if st.pairExists then .ok st.token0IsInput
  else .error (.chainRevert "call revert exception")

/-- Embeds `Pair.getReserves()`; fails when the pair contract does not exist. -/
def pairGetReserves (st : ChainState) : Except Err (Int × Int) :=
  if st.pairExists then .ok (st.reserve0, st.reserve1)
  else .error (.chainRevert "call revert exception")

/-- ethers `formatUnits` followed by Decimal.js arithmetic, idealized as an
exact rational (the value is informational only). -/
def formatUnitsQ (v : Int) (decimals : Nat) : ℚ :=
  mkRat v (10 ^ decimals)

instance {ε α : Type} [DecidableEq ε] [DecidableEq α] : DecidableEq (Except ε α) := fun x y =>
  match x, y with
  | .ok a, .ok b =>
    if h : a = b then .isTrue (by rw [h]) else .isFalse (by simp [h])
  | .error e, .error f =>
    if h : e = f then .isTrue (by rw [h]) else .isFalse (by simp [h])
  | .ok _, .error _ => .isFalse (by simp)
  | .error _, .ok _ => .isFalse (by simp)

/-! ### TypeScript variant (src/index.ts) -/

/-- Router address hardcoded in src/index.ts. -/
def UniswapRouterAddressTs : String := "0x7a250d5630B4cF539739dF2C5dAcb4c659F2488D"

/-- Result record of the TypeScript `getSwapParams` (the source stringifies
the BigNumbers on return; the numeric values are kept as integers here). -/
structure TsSwapParams where
  amountIn : Int
  amountOut : Int
  expectedAmount : Int
  expectedSlippage : ℚ
  path : List String
  deadline : Nat
  deriving DecidableEq, Repr

/-- TypeScript `getSwapParams` (src/index.ts lines 30-168), step by step in
source order: construct the factory and pair contracts (reading
`UniswapRouter.factory()` and `Factory.getPair`), read both tokens'
decimals, parse `amount` at the relevant token's precision, read the latest
block timestamp, quote the counter-amount via the router, apply the
safety-amount formula `expected * (1 ∓ maxSlippage/10000)` in BigNumber
(integer) arithmetic, read `Pair.token0()` and `Pair.getReserves()`,
re-read the input decimals, compute the pre- and post-trade
output-per-input quotes (both arms of the post-trade reserve update are the
duplicated `reserve.add(inputAmount)` code of the source, where
`inputAmount` is undefined unless `exactInput`), and assemble the params.
Addresses are taken as already checksummed (`getAddress` validation is out
of the claims' scope). -/
def tsGetSwapParams (inputToken outputToken : String) (amount : String)
    (exactInput : Bool) (maxSlippage : Int := 100) (maxDelay : Nat := 120)
    (st : ChainState) : Step TsSwapParams :=
  seqS (readS .readFactory (.ok ())) fun _ =>
  seqS (readS .readGetPair (.ok ())) fun _ =>
  seqS (readS .readDecimalsInput (.ok st.inputDecimals)) fun inputDecimals =>
  seqS (readS .readDecimalsOutput (.ok st.outputDecimals)) fun outputDecimals =>
  seqS (pureE (if exactInput then
          (parseUnits amount inputDecimals).map fun x => ((some x : Option Int), (none : Option Int))
        else
          (parseUnits amount outputDecimals).map fun y => ((none : Option Int), (some y : Option Int))))
      fun amounts =>
  let inputAmount := amounts.1
  let outputAmount := amounts.2
  let path := [inputToken, outputToken]
  seqS (readS .readGetBlock (.ok st.timestamp)) fun currentTimestamp =>
  let deadline := currentTimestamp + maxDelay
  seqS (if exactInput then quoteStep .readGetAmountsOut (routerGetAmountsOut st) inputAmount
        else quoteStep .readGetAmountsIn (routerGetAmountsIn st) outputAmount)
      fun expectedAmount =>
  let safetyAmount :=
    if exactInput then expectedAmount * (1 - Int.tdiv maxSlippage 10000)
    else expectedAmount * (1 + Int.tdiv maxSlippage 10000)
  seqS (readS .readToken0 (pairToken0IsInput st)) fun inputIs0 =>
  seqS (readS .readGetReserves (pairGetReserves st)) fun reserves =>
  let reserve0 := reserves.1
  let reserve1 := reserves.2
  seqS (readS .readDecimalsInput (.ok st.inputDecimals)) fun inputDecimalsAgain =>
  let inputUnit : Int := 10 ^ inputDecimalsAgain
  seqS (pureE (if inputIs0 then bnDiv (inputUnit * reserve1) reserve0
        else bnDiv (inputUnit * reserve0) reserve1)) fun outputPerInputQuotePre =>
  seqS (pureE (if exactInput then
          (if inputIs0 then bnAddOpt reserve0 inputAmount else .ok (reserve0 - expectedAmount))
        else
          (if inputIs0 then bnAddOpt reserve0 inputAmount else .ok (reserve0 - expectedAmount))))
      fun reserve0Post =>
  seqS (pureE (if exactInput then
          (if inputIs0 then .ok (reserve1 - expectedAmount) else bnAddOpt reserve1 inputAmount)
        else
          (if inputIs0 then .ok (reserve1 - expectedAmount) else bnAddOpt reserve1 inputAmount)))
      fun reserve1Post =>
  seqS (pureE (if inputIs0 then bnDiv (inputUnit * reserve1Post) reserve0Post
        else bnDiv (inputUnit * reserve0Post) reserve1Post)) fun outputPerInputQuotePost =>
  let pre := formatUnitsQ outputPerInputQuotePre outputDecimals
  let post := formatUnitsQ outputPerInputQuotePost outputDecimals
  let expectedSlippage := ((post.sub pre).div pre).mul 100
  retS { amountIn := if exactInput then inputAmount.getD 0 else safetyAmount
         amountOut := if exactInput then safetyAmount else outputAmount.getD 0
         expectedAmount := expectedAmount
         expectedSlippage := expectedSlippage
         path := path
         deadline := deadline }

/-- TypeScript `swapTokens` (src/index.ts lines 187-261): read the signer's
network, derive the swap params, read the signer's input-token balance and
fail with `insufficientBalance` when it is below `amountIn`, read the
allowance granted to the router and, only when it is below `amountIn`,
submit an approval for exactly `amountIn` and wait for it, then submit the
swap transaction matching the intent direction and wait for it. -/
def tsSwapTokens (recipient inputToken outputToken : String) (amount : String)
    (exactInput : Bool) (maxSlippage : Int := 100) (maxDelay : Nat := 120)
    (st : ChainState) : Step Unit :=
  seqS (readS .readGetNetwork (.ok ())) fun _ =>
  seqS (tsGetSwapParams inputToken outputToken amount exactInput maxSlippage maxDelay st)
      fun params =>
  seqS (readS .readBalanceOf (.ok st.balance)) fun balance =>
  seqS (pureE (if balance < params.amountIn then .error .insufficientBalance else .ok ()))
      fun _ =>
  seqS (readS .readAllowance (.ok st.allowance)) fun allowance =>
  seqS (if allowance < params.amountIn then
          ([.writeApprove UniswapRouterAddressTs params.amountIn, .waitApprove], .ok ())
        else retS ()) fun _ =>
  seqS (if exactInput then
          ([.writeSwapExactTokensForTokens params.amountIn params.amountOut params.path
              recipient params.deadline, .waitSwap], .ok ())
        else
          ([.writeSwapTokensForExactTokens params.amountOut params.amountIn params.path
              recipient params.deadline, .waitSwap], .ok ())) fun _ =>
  retS ()

/-! ### JavaScript variant (src/index.js) -/

/-- Router address hardcoded in src/index.js. -/
def UniswapRouterAddressJs : String := "0xf164fC0Ec4E93095b804a4795bBe1e041497b92a"

/-- JavaScript truthiness of an optional amount string: `undefined` and the
empty string are falsy, any other string is truthy. -/
def jsTruthy : Option String → Bool
  | none => false
  | some s => !s.isEmpty

/-- Arguments object of the JavaScript `getSwapParams`/`swapTokens`
(destructured named parameters; `inputAmount`/`outputAmount` are optional). -/
structure JsArgs where
  networkName : String := ""
  inputToken : String
  inputAmount : Option String := none
  outputToken : String
  outputAmount : Option String := none
  maxSlippage : Int := 100
  maxDelay : Nat := 120

/-- Result record of the JavaScript `getSwapParams`. -/
structure JsSwapParams where
  amountIn : Int
  amountOut : Int
  path : List String
  deadline : Nat
  deriving DecidableEq, Repr

/-- JavaScript `getSwapParams` (src/index.js lines 24-103): throw
`invalidIntent` when both amount strings are truthy (before any chain
query); parse each supplied amount at its token's decimals (reading that
token's `decimals()` only when the amount is supplied); read the latest
block's timestamp; ask the router for the counter-amount (the call fails
while encoding when the amount is `null`); apply the
`expected * (1 ∓ maxSlippage/10000)` safety formula in BigNumber (integer)
arithmetic keyed on which amount was supplied; assemble the params. -/
def jsGetSwapParams (a : JsArgs) (st : ChainState) : Step JsSwapParams :=
  if jsTruthy a.inputAmount && jsTruthy a.outputAmount then failS .invalidIntent
  else
  seqS (match a.inputAmount, jsTruthy a.inputAmount with
        | some s, true =>
          seqS (readS .readDecimalsInput (.ok st.inputDecimals)) fun d =>
          pureE ((parseUnits s d).map fun x => (some x : Option Int))
        | _, _ => retS (none : Option Int)) fun inputAmount =>
  seqS (match a.outputAmount, jsTruthy a.outputAmount with
        | some s, true =>
          seqS (readS .readDecimalsOutput (.ok st.outputDecimals)) fun d =>
          pureE ((parseUnits s d).map fun y => (some y : Option Int))
        | _, _ => retS (none : Option Int)) fun outputAmount =>
  let path := [a.inputToken, a.outputToken]
  seqS (readS .readGetBlock (.ok st.timestamp)) fun currentTimestamp =>
  let deadline := currentTimestamp + a.maxDelay
  seqS (if inputAmount.isSome then
          quoteStep .readGetAmountsOut (routerGetAmountsOut st) inputAmount
        else quoteStep .readGetAmountsIn (routerGetAmountsIn st) outputAmount)
      fun expectedAmount =>
  let safetyAmount :=
    if inputAmount.isSome then expectedAmount * (1 - Int.tdiv a.maxSlippage 10000)
    else expectedAmount * (1 + Int.tdiv a.maxSlippage 10000)
  retS { amountIn := if inputAmount.isSome then inputAmount.getD 0 else safetyAmount
         amountOut := if inputAmount.isSome then safetyAmount else outputAmount.getD 0
         path := path
         deadline := deadline }

/-- JavaScript `swapTokens` (src/index.js lines 123-202): throw
`invalidIntent` when both amount strings are truthy; read the signer's
network; derive the swap params; read the balance and fail with
`insufficientBalance` when it is below `amountIn`; read the allowance and,
only when it is below `amountIn`, submit an approval for exactly `amountIn`
and wait for it; submit the swap matching the intent direction and wait. -/
def jsSwapTokens (recipient : String) (a : JsArgs) (st : ChainState) : Step Unit :=
  if jsTruthy a.inputAmount && jsTruthy a.outputAmount then failS .invalidIntent
  else
  seqS (readS .readGetNetwork (.ok ())) fun _ =>
  seqS (jsGetSwapParams a st) fun params =>
  seqS (readS .readBalanceOf (.ok st.balance)) fun balance =>
  seqS (pureE (if balance < params.amountIn then .error .insufficientBalance else .ok ()))
      fun _ =>
  seqS (readS .readAllowance (.ok st.allowance)) fun allowance =>
  seqS (if allowance < params.amountIn then
          ([.writeApprove UniswapRouterAddressJs params.amountIn, .waitApprove], .ok ())
        else retS ()) fun _ =>
  seqS (if jsTruthy a.inputAmount then
          ([.writeSwapExactTokensForTokens params.amountIn params.amountOut params.path
              recipient params.deadline, .waitSwap], .ok ())
        else
          ([.writeSwapTokensForExactTokens params.amountOut params.amountIn params.path
              recipient params.deadline, .waitSwap], .ok ())) fun _ =>
  retS ()

/-- The chain-write calls of a trace, in order. -/
def writesOf (tr : List Event) : List Event := tr.filter Event.isWrite


/-! ### Helper lemmas -/

theorem seqS_no_writes {α β : Type} (p : Step α) (k : α → Step β)
    (h1 : writesOf p.1 = []) (h2 : ∀ a, writesOf (k a).1 = []) :
    writesOf (seqS p k).1 = [] := by
  rcases p with ⟨evs, r⟩
  simp only [writesOf] at h1 h2 ⊢
  cases r with
  | error e => simpa [seqS] using h1
  | ok a => simp [seqS, List.filter_append, h1, h2 a]

theorem quoteStep_no_writes (ev : Event) (q : Int → Except Err Int) (o : Option Int)
    (hev : ev.isWrite = false) : writesOf (quoteStep ev q o).1 = [] := by
  cases o <;> simp [quoteStep, writesOf, hev]

/-- The TypeScript quote engine issues no chain-write calls. -/
theorem ts_params_no_writes (it ot amount : String) (ex : Bool) (s : Int) (d : Nat)
    (st : ChainState) : writesOf (tsGetSwapParams it ot amount ex s d st).1 = [] := by
  unfold tsGetSwapParams
  repeat' first
    | apply seqS_no_writes
    | apply quoteStep_no_writes
    | intro a
    | split
    | simp [readS, pureE, retS, failS, writesOf, Event.isWrite]

/-- In the TypeScript variant an exact-output call never produces a result. -/
theorem ts_exactOutput_error (it ot amount : String) (s : Int) (d : Nat) (st : ChainState) :
    ((tsGetSwapParams it ot amount false s d st).2).isOk = false := by
  rcases hp : parseUnits amount st.outputDecimals with e | y
  case error =>
    simp [tsGetSwapParams, seqS, readS, pureE, retS, hp, Except.isOk, Except.toBool,
      Except.map]
  case ok =>
    rcases hq : routerGetAmountsIn st y with e | v
    case error =>
      simp [tsGetSwapParams, seqS, readS, pureE, retS, quoteStep, hp, hq, Except.isOk,
        Except.map, Except.toBool]
    case ok =>
      rcases hpe : st.pairExists with _ | _
      case false =>
        simp [tsGetSwapParams, seqS, readS, pureE, retS, quoteStep, hp, hq, hpe,
          pairToken0IsInput, Except.isOk, Except.map, Except.toBool]
      case true =>
        rcases ht0 : st.token0IsInput with _ | _
        case false =>
          by_cases hr : st.reserve1 = 0 <;>
            simp [tsGetSwapParams, seqS, readS, pureE, retS, quoteStep, hp, hq, hpe, ht0,
              hr, pairToken0IsInput, pairGetReserves, bnDiv, bnAddOpt, Except.isOk,
              Except.map, Except.toBool]
        case true =>
          by_cases hr : st.reserve0 = 0 <;>
            simp [tsGetSwapParams, seqS, readS, pureE, retS, quoteStep, hp, hq, hpe, ht0,
              hr, pairToken0IsInput, pairGetReserves, bnDiv, bnAddOpt, Except.isOk,
              Except.map, Except.toBool]

/-- Whenever the TypeScript quote engine returns a result, the deadline is
the block timestamp read at quote time plus `maxDelay`. -/
theorem ts_ok_deadline (it ot amount : String) (ex : Bool) (s : Int) (d : Nat)
    (st : ChainState) (p : TsSwapParams)
    (h : (tsGetSwapParams it ot amount ex s d st).2 = .ok p) :
    p.deadline = st.timestamp + d := by
  rcases ex with _ | _
  case false =>
    have hfalse := ts_exactOutput_error it ot amount s d st
    rw [h] at hfalse
    simp [Except.isOk, Except.toBool] at hfalse
  case true =>
    rcases hp : parseUnits amount st.inputDecimals with e | x
    case error =>
      simp [tsGetSwapParams, seqS, readS, pureE, retS, hp, Except.map] at h
    case ok =>
      rcases hq : routerGetAmountsOut st x with e | v
      case error =>
        simp [tsGetSwapParams, seqS, readS, pureE, retS, quoteStep, hp, hq, Except.map] at h
      case ok =>
        rcases hpe : st.pairExists with _ | _
        case false =>
          simp [tsGetSwapParams, seqS, readS, pureE, retS, quoteStep, hp, hq, hpe,
            pairToken0IsInput, Except.map] at h
        case true =>
          rcases ht0 : st.token0IsInput with _ | _
          case false =>
            by_cases hr : st.reserve1 = 0
            · simp [tsGetSwapParams, seqS, readS, pureE, retS, quoteStep, hp, hq, hpe, ht0,
                hr, pairToken0IsInput, pairGetReserves, bnDiv, bnAddOpt, Except.map] at h
            · by_cases hpost : st.reserve1 + x = 0 <;>
                · simp [tsGetSwapParams, seqS, readS, pureE, retS, quoteStep, hp, hq, hpe,
                    ht0, hr, hpost, pairToken0IsInput, pairGetReserves, bnDiv, bnAddOpt,
                    Except.map] at h
                  try (subst h; rfl)
          case true =>
            by_cases hr : st.reserve0 = 0
            · simp [tsGetSwapParams, seqS, readS, pureE, retS, quoteStep, hp, hq, hpe, ht0,
                hr, pairToken0IsInput, pairGetReserves, bnDiv, bnAddOpt, Except.map] at h
            · by_cases hpost : st.reserve0 + x = 0 <;>
                · simp [tsGetSwapParams, seqS, readS, pureE, retS, quoteStep, hp, hq, hpe,
                    ht0, hr, hpost, pairToken0IsInput, pairGetReserves, bnDiv, bnAddOpt,
                    Except.map] at h
                  try (subst h; rfl)

/-- A successful `getAmountsIn` quote implies that the pair exists and both
reserves are positive. -/
theorem routerGetAmountsIn_ok_inv (st : ChainState) (a v : Int)
    (h : routerGetAmountsIn st a = .ok v) :
    st.pairExists = true ∧ 0 < reserveIn st ∧ 0 < reserveOut st := by
  unfold routerGetAmountsIn at h
  split_ifs at h <;> simp_all

/-- A successful `getAmountsOut` quote implies that the pair exists and both
reserves are positive. -/
theorem routerGetAmountsOut_ok_inv (st : ChainState) (a v : Int)
    (h : routerGetAmountsOut st a = .ok v) :
    st.pairExists = true ∧ 0 < reserveIn st ∧ 0 < reserveOut st := by
  unfold routerGetAmountsOut at h
  split_ifs at h <;> simp_all

theorem splitOnDot_no_dot_append (w f : List Char) (hw : ('.' : Char) ∉ w) :
    splitOnDot (w ++ '.' :: f) = (w, some f) := by
  induction w with
  | nil => simp [splitOnDot]
  | cons c cs ih =>
    simp only [List.mem_cons, not_or] at hw
    simp only [List.cons_append, splitOnDot]
    rw [if_neg (fun h => hw.1 h.symm)]
    simp [ih hw.2]

theorem parseUnitsCore_fraction_exceeds (w f : List Char) (decimals : Nat)
    (hw : ∀ c ∈ w, c.isDigit) (hf : ∀ c ∈ f, c.isDigit)
    (hlen : decimals < (trimTrailingZeros f).length) :
    parseUnitsCore (w ++ '.' :: f) decimals = .error .fractionExceedsDecimals := by
  have hwdot : ('.' : Char) ∉ w := fun hm => absurd (hw _ hm) (by decide)
  have hfdot : ¬ (('.' : Char) ∈ f) := fun hm => absurd (hf _ hm) (by decide)
  have hfne : f ≠ [] := by
    intro h
    rw [h] at hlen
    simp [trimTrailingZeros] at hlen
  have hall : (w ++ '.' :: f).all (fun c => c.isDigit || c == '.') = true := by
    simp only [List.all_append, List.all_cons, Bool.and_eq_true, List.all_eq_true]
    refine ⟨fun c hc => by simp [hw c hc], by simp, fun c hc => by simp [hf c hc]⟩
  rcases w with _ | ⟨c, w2⟩
  case nil =>
    simp only [List.nil_append] at hall ⊢
    simp [parseUnitsCore, hall, splitOnDot, hfdot, hfne, hlen]
  case cons =>
    have hc : ¬ (c = '-') := fun h => by
      have := hw c (by simp)
      rw [h] at this
      exact absurd this (by decide)
    have hcdot : ¬ (c = '.') := fun h => hwdot (by simp [h])
    have hsplit : splitOnDot (c :: (w2 ++ '.' :: f)) = (c :: w2, some f) :=
      splitOnDot_no_dot_append (c :: w2) f hwdot
    simp only [List.cons_append] at hall ⊢
    simp [parseUnitsCore, hall, hc, hcdot, hsplit, hfdot, hlen]


/-- When an exact-output parse and quote both succeed in the TypeScript
variant, the failure happens in the price-impact computation: the undefined
`inputAmount` is added to a reserve. -/
theorem ts_exactOutput_invalidValue (it ot amount : String) (s : Int) (d : Nat)
    (st : ChainState) (y v : Int)
    (hp : parseUnits amount st.outputDecimals = .ok y)
    (hq : routerGetAmountsIn st y = .ok v) :
    (tsGetSwapParams it ot amount false s d st).2 = .error .invalidValue := by
  obtain ⟨hpe, hri, hro⟩ := routerGetAmountsIn_ok_inv st y v hq
  rcases ht0 : st.token0IsInput with _ | _
  case false =>
    have hr : ¬ st.reserve1 = 0 := by
      simp [reserveIn, ht0] at hri
      omega
    simp [tsGetSwapParams, seqS, readS, pureE, retS, quoteStep, hp, hq, hpe, ht0, hr,
      pairToken0IsInput, pairGetReserves, bnDiv, bnAddOpt, Except.map]
  case true =>
    have hr : ¬ st.reserve0 = 0 := by
      simp [reserveIn, ht0] at hri
      omega
    simp [tsGetSwapParams, seqS, readS, pureE, retS, quoteStep, hp, hq, hpe, ht0, hr,
      pairToken0IsInput, pairGetReserves, bnDiv, bnAddOpt, Except.map]

/-- Against a missing pair or a zero reserve, the router's exact-input quote
reverts (with whatever reason the chain produces). -/
theorem routerGetAmountsOut_bad_pool (st : ChainState)
    (hbad : st.pairExists = false ∨ st.reserve0 = 0 ∨ st.reserve1 = 0) (a : Int) :
    ∃ msg, routerGetAmountsOut st a = .error (.chainRevert msg) := by
  unfold routerGetAmountsOut
  split_ifs with h1 h2 h3
  · exact ⟨_, rfl⟩
  · exact ⟨_, rfl⟩
  · exact ⟨_, rfl⟩
  · exfalso
    rcases ht0 : st.token0IsInput with _ | _ <;>
      · simp_all [reserveIn, reserveOut, ht0]
        omega

/-- Against a missing pair or a zero reserve, the router's exact-output
quote reverts (with whatever reason the chain produces). -/
theorem routerGetAmountsIn_bad_pool (st : ChainState)
    (hbad : st.pairExists = false ∨ st.reserve0 = 0 ∨ st.reserve1 = 0) (a : Int) :
    ∃ msg, routerGetAmountsIn st a = .error (.chainRevert msg) := by
  unfold routerGetAmountsIn
  split_ifs with h1 h2 h3 h4
  · exact ⟨_, rfl⟩
  · exact ⟨_, rfl⟩
  · exact ⟨_, rfl⟩
  · exact ⟨_, rfl⟩
  · exfalso
    rcases ht0 : st.token0IsInput with _ | _ <;>
      · simp_all [reserveIn, reserveOut, ht0]
        omega




/-! ### Concrete states for witnesses and counterexamples -/

/-- A healthy concrete chain state: two 2-decimal tokens, existing pair with
reserves 10^6/10^6, input token in slot 0, block timestamp 1000, signer
balance 5000 and allowance 0. -/
def stOk : ChainState :=
  { inputDecimals := 2, outputDecimals := 2, pairExists := true, reserve0 := 1000000,
    reserve1 := 1000000, token0IsInput := true, timestamp := 1000, balance := 5000,
    allowance := 0 }

/-- Same state with the pair missing (factory lookup yields the zero address). -/
def stNoPair : ChainState := { stOk with pairExists := false }

/-- Same state with a balance below the required input amount. -/
def stLowBalance : ChainState := { stOk with balance := 500 }

/-- Same state with an allowance already covering the input amount. -/
def stHighAllowance : ChainState := { stOk with allowance := 100000 }

/-- Same state with a different balance (for the determinism witness). -/
def stOtherBalance : ChainState := { stOk with balance := 7777 }

/-- Same state with a 6-decimal input token (for the precision witness). -/
def stSixDecimals : ChainState := { stOk with inputDecimals := 6 }

/-! ### Claims -/

/-- C1: for an exact-input intent with slippage tolerance 100 bps the claim
requires `amountOut = expectedAmount - expectedAmount*100/10000` up to
truncation; the code instead computes
`expectedAmount * (1 - BigNumber(100)/10000) = expectedAmount * 1`, so at
this input amountOut = expectedAmount = 996 with shortfall 0, while the
claimed shortfall is `tdiv (996*100) 10000 = 9`: the slippage adjustment
collapses in integer arithmetic. -/
theorem c1_exact_input_slippage_collapses :
    ((tsGetSwapParams "0xA" "0xB" "10" true 100 120 stOk).2).map
        (fun p => (p.amountOut, p.expectedAmount)) = .ok (996, 996) ∧
    (996 - 996 : Int) = 0 ∧ Int.tdiv (996 * 100) 10000 = 9 :=
  ⟨by decide, by decide, by decide⟩

/-- C2: for an exact-output intent with slippage tolerance 100 bps the claim
requires `amountIn = expectedAmount + expectedAmount*100/10000` up to
truncation; in the JavaScript variant the code computes
`expectedAmount * (1 + BigNumber(100)/10000) = expectedAmount * 1`, so at
this input amountIn = expectedAmount = 1005 with excess 0, while the claimed
excess is `tdiv (1005*100) 10000 = 10` (and the TypeScript variant never
returns at all for exact output, see C3). -/
theorem c2_exact_output_slippage_collapses :
    ((jsGetSwapParams
        { inputToken := "0xA", outputToken := "0xB", outputAmount := some "10" }
        stOk).2).map (fun p => p.amountIn) = .ok 1005 ∧
    parseUnits "10" stOk.outputDecimals = .ok 1000 ∧
    routerGetAmountsIn stOk 1000 = .ok 1005 ∧
    (1005 - 1005 : Int) = 0 ∧ Int.tdiv (1005 * 100) 10000 = 10 :=
  ⟨by decide, by decide, by decide, by decide, by decide⟩

/-- C3: in the TypeScript variant an exact-output intent never yields a
`SwapParams` result, and whenever the amount parses and the router quote
succeeds the failure is precisely the `invalidValue` error raised by
`reserve.add(inputAmount)` with `inputAmount` undefined in the post-trade
reserve simulation, regardless of pool state. -/
theorem c3_ts_exact_output_never_returns (it ot amount : String) (s : Int) (d : Nat)
    (st : ChainState) :
    ((tsGetSwapParams it ot amount false s d st).2).isOk = false ∧
    (∀ y v, parseUnits amount st.outputDecimals = .ok y →
      routerGetAmountsIn st y = .ok v →
      (tsGetSwapParams it ot amount false s d st).2 = .error .invalidValue) :=
  ⟨ts_exactOutput_error it ot amount s d st,
   fun y v hp hq => ts_exactOutput_invalidValue it ot amount s d st y v hp hq⟩

theorem c3_witness :
    ((tsGetSwapParams "0xA" "0xB" "10" false 100 120 stOk).2).isOk = false ∧
    (tsGetSwapParams "0xA" "0xB" "10" false 100 120 stOk).2 = .error .invalidValue :=
  ⟨(c3_ts_exact_output_never_returns "0xA" "0xB" "10" 100 120 stOk).1,
   (c3_ts_exact_output_never_returns "0xA" "0xB" "10" 100 120 stOk).2 1000 1005
     (by decide) (by decide)⟩

/-- C4: the claim requires a dedicated `PoolUnavailable` failure for a
missing pair; at this concrete missing-pair state the code instead
propagates the chain client's generic revert from the counter-amount query,
which is not the `poolUnavailable` error. -/
theorem c4_counterexample :
    (tsGetSwapParams "0xA" "0xB" "10" true 100 120 stNoPair).2
      = .error (.chainRevert "call revert exception") ∧
    Err.chainRevert "call revert exception" ≠ Err.poolUnavailable :=
  ⟨by decide, by decide⟩

/-- C4 (amended): for any intent whose amount string parses, over a pair
that does not exist or whose pool has a zero reserve, `getSwapParams` fails
by propagating the underlying chain revert from the quote (it neither
crashes differently nor silently returns a zero counter-amount), but no
dedicated `PoolUnavailable` error exists. -/
theorem c4_amended_pool_failure_propagates (it ot amount : String) (ex : Bool)
    (s : Int) (d : Nat) (st : ChainState) (x : Int)
    (hp : parseUnits amount (if ex then st.inputDecimals else st.outputDecimals) = .ok x)
    (hbad : st.pairExists = false ∨ st.reserve0 = 0 ∨ st.reserve1 = 0) :
    ∃ msg, (tsGetSwapParams it ot amount ex s d st).2 = .error (.chainRevert msg) := by
  rcases ex with _ | _
  case false =>
    simp only [if_false, Bool.false_eq_true] at hp
    obtain ⟨msg, hmsg⟩ := routerGetAmountsIn_bad_pool st hbad x
    exact ⟨msg, by
      simp [tsGetSwapParams, seqS, readS, pureE, retS, quoteStep, hp, hmsg, Except.map]⟩
  case true =>
    simp only [if_true] at hp
    obtain ⟨msg, hmsg⟩ := routerGetAmountsOut_bad_pool st hbad x
    exact ⟨msg, by
      simp [tsGetSwapParams, seqS, readS, pureE, retS, quoteStep, hp, hmsg, Except.map]⟩

theorem c4_witness :
    parseUnits "10" (if true then stNoPair.inputDecimals else stNoPair.outputDecimals)
      = .ok 1000 ∧
    stNoPair.pairExists = false ∧
    ∃ msg, (tsGetSwapParams "0xA" "0xB" "10" true 100 120 stNoPair).2
      = .error (.chainRevert msg) :=
  ⟨by decide, by decide,
   c4_amended_pool_failure_propagates "0xA" "0xB" "10" true 100 120 stNoPair 1000
     (by decide) (Or.inl (by decide))⟩

/-- C5: the JavaScript guard rejects only the both-amounts-supplied case
with `invalidIntent` before any chain query (the result is independent of
the chain state and its query trace is empty), in `getSwapParams` and in
`swapTokens` alike; when neither amount is supplied the guard passes, the
block-timestamp query is issued, and the call fails with the generic
`invalidValue` encoding error from the quote call instead. -/
theorem c5_amended_intent_guard (r : String) (a : JsArgs) (st : ChainState) :
    (jsTruthy a.inputAmount = true → jsTruthy a.outputAmount = true →
      jsGetSwapParams a st = ([], .error .invalidIntent) ∧
      jsSwapTokens r a st = ([], .error .invalidIntent)) ∧
    (jsTruthy a.inputAmount = false → jsTruthy a.outputAmount = false →
      jsGetSwapParams a st = ([.readGetBlock], .error .invalidValue)) := by
  constructor
  · intro h1 h2
    constructor <;> simp [jsGetSwapParams, jsSwapTokens, failS, h1, h2]
  · intro h1 h2
    rcases hin : a.inputAmount with _ | sIn <;> rcases hout : a.outputAmount with _ | sOut <;>
      simp_all [jsGetSwapParams, jsTruthy, failS, seqS, readS, pureE, retS, quoteStep]

/-- C5: at a concrete state with neither amount supplied, the failure is the
generic `invalidValue` error raised after the block-timestamp query — not
the `invalidIntent` validation error the claim requires. -/
theorem c5_counterexample :
    jsGetSwapParams { inputToken := "0xA", outputToken := "0xB" } stOk
      = ([.readGetBlock], .error .invalidValue) ∧
    Err.invalidValue ≠ Err.invalidIntent ∧
    Err.invalidIntentClass .invalidValue = false :=
  ⟨by decide, by decide, by decide⟩

theorem c5_witness :
    (jsGetSwapParams
        { inputToken := "0xA", outputToken := "0xB", inputAmount := some "1",
          outputAmount := some "2" } stOk = ([], .error .invalidIntent) ∧
      jsSwapTokens "0xR"
        { inputToken := "0xA", outputToken := "0xB", inputAmount := some "1",
          outputAmount := some "2" } stOk = ([], .error .invalidIntent)) ∧
    jsGetSwapParams { inputToken := "0xA", outputToken := "0xB" } stOk
      = ([.readGetBlock], .error .invalidValue) :=
  ⟨(c5_amended_intent_guard "0xR"
      { inputToken := "0xA", outputToken := "0xB", inputAmount := some "1",
        outputAmount := some "2" } stOk).1 (by decide) (by decide),
   (c5_amended_intent_guard "0xR" { inputToken := "0xA", outputToken := "0xB" } stOk).2
     (by decide) (by decide)⟩

/-- C6: in `swapTokens`, when the balance covers the required input amount
and the allowance does not, the chain-write trace is exactly one approval of
the router for exactly `amountIn`, confirmed (`waitApprove`) before the swap
transaction is submitted; when the allowance already covers `amountIn`, the
trace contains no approval at all. -/
theorem c6_approval_policy (recipient it ot amount : String) (ex : Bool) (s : Int)
    (d : Nat) (st : ChainState) (aIn aOut : Int) (pth : List String) (dl : Nat)
    (h1 : ((tsGetSwapParams it ot amount ex s d st).2).map
        (fun p => (p.amountIn, p.amountOut, p.path, p.deadline)) = .ok (aIn, aOut, pth, dl))
    (h2 : ¬ st.balance < aIn) :
    (st.allowance < aIn →
      writesOf (tsSwapTokens recipient it ot amount ex s d st).1 =
        [.writeApprove UniswapRouterAddressTs aIn, .waitApprove,
         .writeSwapExactTokensForTokens aIn aOut pth recipient dl, .waitSwap]) ∧
    (¬ st.allowance < aIn →
      writesOf (tsSwapTokens recipient it ot amount ex s d st).1 =
        [.writeSwapExactTokensForTokens aIn aOut pth recipient dl, .waitSwap]) := by
  rcases hres : tsGetSwapParams it ot amount ex s d st with ⟨evs, r⟩
  have hnw := ts_params_no_writes it ot amount ex s d st
  rw [hres] at hnw
  simp only [writesOf] at hnw
  rcases r with e | p
  · rw [hres] at h1
    simp [Except.map] at h1
  · rw [hres] at h1
    simp only [Except.map, Except.ok.injEq, Prod.mk.injEq] at h1
    obtain ⟨e1, e2, e3, e4⟩ := h1
    rcases ex with _ | _
    case false =>
      have hf := ts_exactOutput_error it ot amount s d st
      rw [hres] at hf
      simp [Except.isOk, Except.toBool] at hf
    case true =>
      constructor <;> intro h3 <;>
        simp [tsSwapTokens, seqS, readS, pureE, retS, hres, h2, h3, e1, e2, e3, e4,
          writesOf, List.filter_append, Event.isWrite, hnw]

theorem c6_witness :
    ((tsGetSwapParams "0xA" "0xB" "10" true 100 120 stOk).2).map
        (fun p => (p.amountIn, p.amountOut, p.path, p.deadline))
      = .ok (1000, 996, ["0xA", "0xB"], 1120) ∧
    ¬ stOk.balance < 1000 ∧ stOk.allowance < 1000 ∧
    writesOf (tsSwapTokens "0xR" "0xA" "0xB" "10" true 100 120 stOk).1 =
      [.writeApprove UniswapRouterAddressTs 1000, .waitApprove,
       .writeSwapExactTokensForTokens 1000 996 ["0xA", "0xB"] "0xR" 1120, .waitSwap] :=
  ⟨by decide, by decide, by decide,
   (c6_approval_policy "0xR" "0xA" "0xB" "10" true 100 120 stOk 1000 996 ["0xA", "0xB"]
     1120 (by decide) (by decide)).1 (by decide)⟩

/-- C7: in `swapTokens`, when the signer's balance is strictly below the
required input amount the call fails with `insufficientBalance` and its
trace contains zero chain-write calls. -/
theorem c7_insufficient_balance_no_writes (recipient it ot amount : String) (ex : Bool)
    (s : Int) (d : Nat) (st : ChainState) (aIn : Int)
    (h1 : ((tsGetSwapParams it ot amount ex s d st).2).map (fun p => p.amountIn)
      = .ok aIn)
    (h2 : st.balance < aIn) :
    (tsSwapTokens recipient it ot amount ex s d st).2 = .error .insufficientBalance ∧
    writesOf (tsSwapTokens recipient it ot amount ex s d st).1 = [] := by
  rcases hres : tsGetSwapParams it ot amount ex s d st with ⟨evs, r⟩
  have hnw := ts_params_no_writes it ot amount ex s d st
  rw [hres] at hnw
  simp only [writesOf] at hnw
  rcases r with e | p
  · rw [hres] at h1
    simp [Except.map] at h1
  · rw [hres] at h1
    simp only [Except.map, Except.ok.injEq] at h1
    constructor <;>
      simp [tsSwapTokens, seqS, readS, pureE, retS, hres, h1, h2, writesOf,
        List.filter_append, Event.isWrite, hnw]

theorem c7_witness :
    ((tsGetSwapParams "0xA" "0xB" "10" true 100 120 stLowBalance).2).map
        (fun p => p.amountIn) = .ok 1000 ∧
    stLowBalance.balance < 1000 ∧
    ((tsSwapTokens "0xR" "0xA" "0xB" "10" true 100 120 stLowBalance).2
        = .error .insufficientBalance ∧
      writesOf (tsSwapTokens "0xR" "0xA" "0xB" "10" true 100 120 stLowBalance).1 = []) :=
  ⟨by decide, by decide,
   c7_insufficient_balance_no_writes "0xR" "0xA" "0xB" "10" true 100 120 stLowBalance
     1000 (by decide) (by decide)⟩

/-- C8: the claim requires every amount string with more fractional digits
than the token's decimals to be rejected; ethers' parseFixed trims trailing
zeros before the precision check, so "1.2300000" against a 6-decimal token
(7 fractional digits) parses to exactly 1230000 and `getSwapParams`
succeeds — no failure and no truncation, since the amount is exactly
representable. -/
theorem c8_counterexample :
    "1.2300000".data = ['1'] ++ '.' :: "2300000".data ∧
    stSixDecimals.inputDecimals < "2300000".data.length ∧
    (∀ c ∈ "2300000".data, c.isDigit) ∧
    parseUnits "1.2300000" 6 = .ok 1230000 ∧
    ((tsGetSwapParams "0xA" "0xB" "1.2300000" true 100 120 stSixDecimals).2).map
      (fun p => p.amountIn) = .ok 1230000 :=
  ⟨by decide, by decide, by decide, by decide, by decide⟩

/-- C8 (amended): an amount string whose fractional part, after ethers'
trailing-zeros trim, is still longer than the relevant token's decimals —
i.e. an amount not exactly representable at that precision — makes
`getSwapParams` fail with the precision error raised by amount parsing (the
spec's `InvalidIntent` class) instead of silently truncating the amount;
strings whose surplus fractional digits are all zeros are exactly
representable and are accepted unchanged. -/
theorem c8_precision_exceeds_decimals (it ot amount : String) (ex : Bool) (s : Int)
    (d : Nat) (st : ChainState) (w f : List Char)
    (hdata : amount.data = w ++ '.' :: f)
    (hw : ∀ c ∈ w, c.isDigit) (hf : ∀ c ∈ f, c.isDigit)
    (hlen : (if ex then st.inputDecimals else st.outputDecimals)
      < (trimTrailingZeros f).length) :
    (tsGetSwapParams it ot amount ex s d st).2 = .error .fractionExceedsDecimals ∧
    Err.invalidIntentClass .fractionExceedsDecimals = true := by
  refine ⟨?_, by decide⟩
  have hp : parseUnits amount (if ex then st.inputDecimals else st.outputDecimals)
      = .error .fractionExceedsDecimals := by
    unfold parseUnits
    rw [hdata]
    exact parseUnitsCore_fraction_exceeds w f _ hw hf hlen
  rcases ex with _ | _
  case false =>
    simp only [if_false, Bool.false_eq_true] at hp
    simp [tsGetSwapParams, seqS, readS, pureE, retS, hp, Except.map]
  case true =>
    simp only [if_true] at hp
    simp [tsGetSwapParams, seqS, readS, pureE, retS, hp, Except.map]

theorem c8_witness :
    "1.23456789".data = ['1'] ++ '.' :: "23456789".data ∧
    (if true then stSixDecimals.inputDecimals else stSixDecimals.outputDecimals)
      < (trimTrailingZeros "23456789".data).length ∧
    ((tsGetSwapParams "0xA" "0xB" "1.23456789" true 100 120 stSixDecimals).2
        = .error .fractionExceedsDecimals ∧
      Err.invalidIntentClass .fractionExceedsDecimals = true) :=
  ⟨by decide, by decide,
   c8_precision_exceeds_decimals "0xA" "0xB" "1.23456789" true 100 120 stSixDecimals
     ['1'] "23456789".data (by decide) (by decide) (by decide) (by decide)⟩

/-- C9: every successful `getSwapParams` call returns
`deadline = blockTimestamp + maxDelay`; the deadline is strictly greater
than the block timestamp whenever `maxDelay` is positive (the unvalidated
interface also accepts `maxDelay = 0`, for which the strict inequality
fails — see the counterexample). -/
theorem c9_amended_deadline (it ot amount : String) (ex : Bool) (s : Int) (d : Nat)
    (st : ChainState) (dl : Nat)
    (h : ((tsGetSwapParams it ot amount ex s d st).2).map (fun p => p.deadline)
      = .ok dl) :
    dl = st.timestamp + d ∧ (0 < d → st.timestamp < dl) := by
  rcases hres : (tsGetSwapParams it ot amount ex s d st).2 with e | p
  · rw [hres] at h
    simp [Except.map] at h
  · rw [hres] at h
    simp only [Except.map, Except.ok.injEq] at h
    have hd := ts_ok_deadline it ot amount ex s d st p hres
    subst h
    exact ⟨hd, fun h0 => by omega⟩

/-- C9: with `maxDelay = 0`, which nothing in the interface rejects, a
successful call returns a deadline equal to the block timestamp, not
strictly greater than it. -/
theorem c9_counterexample :
    ((tsGetSwapParams "0xA" "0xB" "10" true 100 0 stOk).2).map
        (fun p => (p.deadline, decide (stOk.timestamp < p.deadline)))
      = .ok (1000, false) := by decide

theorem c9_witness :
    ((tsGetSwapParams "0xA" "0xB" "10" true 100 120 stOk).2).map (fun p => p.deadline)
      = .ok 1120 ∧
    (1120 = stOk.timestamp + 120 ∧ (0 < 120 → stOk.timestamp < 1120)) :=
  ⟨by decide,
   c9_amended_deadline "0xA" "0xB" "10" true 100 120 stOk 1120 (by decide)⟩

/-- C10: `getSwapParams` is deterministic given fixed external state — two
calls with identical arguments against chain states that agree on every
quote-relevant observable (decimals, pair existence, reserves, token
ordering, block timestamp) return identical traces and outputs, whatever
the signer's balance or allowance. -/
theorem c10_deterministic (it ot amount : String) (ex : Bool) (s : Int) (d : Nat)
    (st1 st2 : ChainState)
    (h1 : st1.inputDecimals = st2.inputDecimals)
    (h2 : st1.outputDecimals = st2.outputDecimals)
    (h3 : st1.pairExists = st2.pairExists)
    (h4 : st1.reserve0 = st2.reserve0)
    (h5 : st1.reserve1 = st2.reserve1)
    (h6 : st1.token0IsInput = st2.token0IsInput)
    (h7 : st1.timestamp = st2.timestamp) :
    tsGetSwapParams it ot amount ex s d st1 = tsGetSwapParams it ot amount ex s d st2 := by
  obtain ⟨i1, o1, pe1, r01, r11, t01, ts1, b1, al1⟩ := st1
  obtain ⟨i2, o2, pe2, r02, r12, t02, ts2, b2, al2⟩ := st2
  dsimp only at h1 h2 h3 h4 h5 h6 h7
  subst h1
  subst h2
  subst h3
  subst h4
  subst h5
  subst h6
  subst h7
  rfl

theorem c10_witness :
    stOk.inputDecimals = stOtherBalance.inputDecimals ∧
    stOk.balance ≠ stOtherBalance.balance ∧
    tsGetSwapParams "0xA" "0xB" "10" true 100 120 stOk
      = tsGetSwapParams "0xA" "0xB" "10" true 100 120 stOtherBalance :=
  ⟨rfl, by decide,
   c10_deterministic "0xA" "0xB" "10" true 100 120 stOk stOtherBalance rfl rfl rfl rfl
     rfl rfl rfl⟩


end UniswapV2Helper
